import Mathlib

/-!
Shallow embedding of the content-catalog assembly and update engine of the
Sarantg143/zion repository (src/src/firebase/degreeApi.js, plus the
near-duplicate API variants shipped as src/unnamed/part_002 and
src/unnamed/part_003).

Modelling conventions:
  * JavaScript async sequencing with exceptions becomes an explicit
    state-and-error passing type `M σ α = σ → Except Err α × σ`; the state is
    kept on the error branch because side effects performed before a throw
    persist (object-store writes are not rolled back).
  * `uuidv4()` is modelled as a fresh-counter generator (`St.fresh`); the
    generator never repeats a value, matching the uniqueness assumption of the
    specification.
  * The Firestore degrees collection is the `degrees` field of the state; the
    object store is the `puts` field (list of written paths).
  * The object-store client and media probe are an oracle `Env`:
    `fileOk f` models whether `uploadBytes` and `getDownloadURL` succeed for
    file `f`, `urlOf f` the returned download URL, `duration f` the outcome of
    the media-metadata probe (`none` models the probe raising its error event),
    and `now` models `Date.now()`.
  * JavaScript falsiness in defaulting expressions (`x || d`) is modelled
    explicitly: `0` and the empty string are falsy, an empty array is truthy.
  * `Option String` conflates the JavaScript values `null` and `undefined`.
-/

/-- An uploaded raw file as the authoring UI hands it over: `file.name` and
the declared content type `file.type`. -/
structure FileInput where
  name : String
  type : String
deriving DecidableEq

/-- `point.title` / `point.description` pairs used for overview points. -/
structure Point where
  title : String
  description : String
deriving DecidableEq

/-- The question type tag carried by every authored question
(`'MCQ' | 'Typed'`, the only two tags the authoring input shape produces). -/
inductive AnswerType where
  | MCQ
  | Typed
deriving DecidableEq

/-- A raw question spec from the authoring input:
`{ question, type, options?, correctAnswer?, answer?, marks? }`. -/
structure QuestionSpec where
  question : String
  type : AnswerType
  options : Option (List String)
  correctAnswer : Option String
  answer : Option String
  marks : Option Nat
deriving DecidableEq

/-- A raw test spec: `{ title, timeLimit, type, questions }`. -/
structure TestSpec where
  title : String
  timeLimit : Nat
  type : String
  questions : List QuestionSpec
deriving DecidableEq

/-- A raw lesson spec: `{ title, file }`. -/
structure LessonSpec where
  title : String
  file : FileInput
deriving DecidableEq

/-- A raw chapter spec: `{ title, description?, lessons, test? }`. -/
structure ChapterSpec where
  title : String
  description : Option String
  lessons : List LessonSpec
  test : Option TestSpec
deriving DecidableEq

/-- A raw course spec:
`{ title, description, thumbnail?, price, chapters, finalTest?, overviewPoints }`. -/
structure CourseSpec where
  title : String
  description : String
  thumbnail : Option FileInput
  price : Nat
  chapters : List ChapterSpec
  finalTest : Option TestSpec
  overviewPoints : List Point
deriving DecidableEq

/-- The whole authoring input consumed by `addDegree` / `editDegree`:
`{ name, description, thumbnail?, overviewPoints, courses }`. -/
structure DegreeInput where
  name : String
  description : String
  thumbnail : Option FileInput
  overviewPoints : List Point
  courses : List CourseSpec
deriving DecidableEq

/-- JavaScript `x || d` on an optional number: `undefined` and `0` are falsy. -/
def jsOrNat (x : Option Nat) (d : Nat) : Nat :=
  match x with
  | none => d
  | some 0 => d
  | some m => m

/-- JavaScript `x || null` on an optional string: the empty string is falsy. -/
def jsOrNull (x : Option String) : Option String :=
  match x with
  | none => none
  | some "" => none
  | some s => some s

/-- JavaScript `x || d` on an optional string: `undefined` and `""` are falsy. -/
def jsOrStr (x : Option String) (d : String) : String :=
  match x with
  | none => d
  | some "" => d
  | some s => s

/-- A normalized stored question, as built by `createTestObject` in
degreeApi.js.  The two constructors carry exactly the keys the two branches of
the question formatter put on the object (`userAnswer` is the initial
`null` / empty-string placeholder the builder writes). -/
inductive Question where
  | mcq (question : String) (options : List String)
      (correctAnswer : Option String) (marks : Nat) (userAnswer : Option String)
  | typed (question : String) (answer : String) (marks : Nat) (userAnswer : String)
deriving DecidableEq

/-- The `marks` field of a normalized question. -/
def Question.marks : Question → Nat
  | .mcq _ _ _ m _ => m
  | .typed _ _ m _ => m

/-- The prompt text of a normalized question. -/
def Question.text : Question → String
  | .mcq q _ _ _ _ => q
  | .typed q _ _ _ => q

/-- A stored test object (data fields of the object literal built by
`createTestObject` / `updateTest`). -/
structure Test where
  testId : Nat
  title : String
  timeLimit : Nat
  type : String
  totalMarks : Nat
  questions : List Question
deriving DecidableEq

/-- The file metadata record returned by `uploadFile` in degreeApi.js:
`{ url, type, name, duration }`. -/
structure FileAsset where
  url : String
  type : String
  name : String
  duration : Option Nat
deriving DecidableEq

/-- A stored lesson: `{ lessonId, lessonTitle, file }`. -/
structure Lesson where
  lessonId : Nat
  lessonTitle : String
  file : FileAsset
deriving DecidableEq

/-- A stored chapter: `{ chapterId, chapterTitle, description, test, lessons }`. -/
structure Chapter where
  chapterId : Nat
  chapterTitle : String
  description : String
  test : Option Test
  lessons : List Lesson
deriving DecidableEq

/-- A stored course: `{ courseId, courseTitle, description, thumbnail, price,
chapters, finalTest, overviewPoints }`. -/
structure Course where
  courseId : Nat
  courseTitle : String
  description : String
  thumbnail : Option String
  price : Nat
  chapters : List Chapter
  finalTest : Option Test
  overviewPoints : List Point
deriving DecidableEq

/-- A stored degree document.  `updatedAt` is absent (`none`) on a freshly
created document and set by `editDegree` through `updateDoc`. -/
structure Degree where
  degreeId : Nat
  degreeTitle : String
  description : String
  thumbnail : Option String
  overviewPoints : List Point
  courses : List Course
  createdAt : Nat
  updatedAt : Option Nat
deriving DecidableEq

/-- The world state threaded through degreeApi.js operations: the uuid
generator, the object-store paths written so far, and the contents of the
Firestore `degrees` collection. -/
structure St where
  nextId : Nat
  puts : List String
  degrees : List Degree
deriving DecidableEq

/-- Oracle for the external services: object-store success, download URLs, the
media-metadata probe, and the clock. -/
structure Env where
  fileOk : FileInput → Bool
  urlOf : FileInput → String
  duration : FileInput → Option Nat
  now : Nat

/-- Errors are the JavaScript error messages. -/
def Err : Type := String
deriving instance DecidableEq for Err

/-- A JavaScript async computation over state `σ`: it returns a value or a
raised error, together with the state after all side effects performed before
returning or throwing (effects are not rolled back by a throw). -/
def M (σ : Type) (α : Type) : Type := σ → Except Err α × σ

/-- `return x` / a pure expression. -/
def M.pure (a : α) : M σ α := fun s => (.ok a, s)

/-- `await` sequencing: run `x`, feed its value to `f`; a raised error
short-circuits. -/
def M.bind (x : M σ α) (f : α → M σ β) : M σ β := fun s =>
  match x s with
  | (.ok a, s') => f a s'
  | (.error e, s') => (.error e, s')

/-- `throw new Error(e)`. -/
def M.throw (e : Err) : M σ α := fun s => (.error e, s)

/-- `try { x } catch (e) { handler }`. -/
def M.tryCatch (x : M σ α) (handler : Err → M σ α) : M σ α := fun s =>
  match x s with
  | (.error e, s') => handler e s'
  | r => r

/-- Read the current state. -/
def M.get : M σ σ := fun s => (.ok s, s)

/-- Sequential realisation of `Promise.all(list.map(f))`: the single-threaded
model runs the mapped computations in input order and collects the results in
input order (sibling uploads overlap in time in the real engine, but results
are assembled back into input order, which is all the embedding keeps). -/
def M.mapM (f : α → M σ β) : List α → M σ (List β)
  | [] => M.pure []
  | a :: as =>
      M.bind (f a) (fun b => M.bind (M.mapM f as) (fun bs => M.pure (b :: bs)))

/-- `uuidv4()`: hand out the next fresh identifier. -/
def St.fresh : M St Nat := fun s => (.ok s.nextId, { s with nextId := s.nextId + 1 })

/-- `uploadBytes(ref(storage, path), file)`: record the written path, or raise
when the store rejects the interaction for this file. -/
def St.uploadBytes (env : Env) (path : String) (file : FileInput) : M St Unit := fun s =>
  if env.fileOk file then (.ok (), { s with puts := s.puts ++ [path] })
  else (.error "uploadBytes failed", s)

/-- `getDownloadURL(ref)` for the file just written. -/
def St.getDownloadURL (env : Env) (file : FileInput) : M St String := fun s =>
  if env.fileOk file then (.ok (env.urlOf file), s)
  else (.error "getDownloadURL failed", s)

/-- `addDoc(collection(db, DEGREES_COLLECTION), degree)`. -/
def St.addDoc (d : Degree) : M St Unit := fun s =>
  (.ok (), { s with degrees := s.degrees ++ [d] })

/-- `file.type.split('/')[0]`: the primary category of a declared content
type — the prefix of the content type before its first slash (the whole
string when it has no slash, the empty string when it starts with one). -/
def primaryType (ctype : String) : String :=
  String.mk (ctype.data.takeWhile (fun c => c ≠ '/'))

/-- The `SUPPORTED_FILE_FOLDERS` lookup table of degreeApi.js; a missing key
yields `undefined`, modelled as `none`. -/
def SUPPORTED_FILE_FOLDERS : String → Option String
  | "video" => some "videos"
  | "audio" => some "audios"
  | "image" => some "images"
  | "document" => some "documents"
  | "pdf" => some "documents"
  | "ppt" => some "presentations"
  | _ => none

/-- `getMediaDuration(file)` (defined in the part_003 / part_002 variants,
called by every `uploadFile`): the media element probe resolves the decoded
duration on `loadedmetadata` and resolves `null` on its error event — it never
rejects, so metadata failure cannot fail an upload. -/
def getMediaDuration (env : Env) (file : FileInput) : Option Nat :=
  env.duration file

/-- The body of the `try` block of `uploadFile` (degreeApi.js lines 17-37):
category lookup, namespaced write under a fresh token, URL retrieval, and the
duration probe for video/audio. -/
def uploadFileTry (env : Env) (file : FileInput) : M St FileAsset :=
  let fileType := primaryType file.type
  match SUPPORTED_FILE_FOLDERS fileType with
  | none => M.throw ("Unsupported file type: " ++ file.type)
  | some folder =>
      M.bind St.fresh (fun token =>
      let path := folder ++ "/" ++ toString token ++ "_" ++ file.name
      M.bind (St.uploadBytes env path file) (fun _ =>
      M.bind (St.getDownloadURL env file) (fun fileUrl =>
      let duration : Option Nat :=
        if fileType = "video" ∨ fileType = "audio" then getMediaDuration env file
        else none
      M.pure { url := fileUrl, type := fileType, name := file.name, duration })))

/-- `uploadFile` (degreeApi.js): the `try` body wrapped by the `catch` that
rethrows every failure as a generic upload error. -/
def uploadFile (env : Env) (file : FileInput) : M St FileAsset :=
  M.tryCatch (uploadFileTry env file) (fun _ => M.throw "File upload failed")

/-- The body of the `try` block of `uploadThumbnail`. -/
def uploadThumbnailTry (env : Env) (file : FileInput) : M St String :=
  M.bind St.fresh (fun token =>
  let path := "thumbnails/" ++ toString token ++ "_" ++ file.name
  M.bind (St.uploadBytes env path file) (fun _ =>
  St.getDownloadURL env file))

/-- `uploadThumbnail` (degreeApi.js lines 44-53). -/
def uploadThumbnail (env : Env) (file : FileInput) : M St String :=
  M.tryCatch (uploadThumbnailTry env file) (fun _ => M.throw "Thumbnail upload failed")

/-- `thumbnail ? await uploadThumbnail(thumbnail) : null`. -/
def optThumb (env : Env) (t : Option FileInput) : M St (Option String) :=
  match t with
  | some f => M.bind (uploadThumbnail env f) (fun u => M.pure (some u))
  | none => M.pure none

/-- The question normalizer inside `createTestObject` (degreeApi.js lines
62-80); the map body of `updateTest` (lines 224-242) is the same text.  MCQ:
`options || []` (an empty array is truthy and kept), `correctAnswer || null`
(the empty string is falsy), `marks || 1` (0 is falsy), `userAnswer = null`.
Typed: `answer || ''`, `marks = 0`, `userAnswer = ''`. -/
def normalizeQuestion (q : QuestionSpec) : Question :=
  match q.type with
  | .MCQ => .mcq q.question (q.options.getD []) (jsOrNull q.correctAnswer)
      (jsOrNat q.marks 1) none
  | .Typed => .typed q.question (jsOrStr q.answer "") 0 ""

/-- The data fields of the object literal built by `createTestObject`
(degreeApi.js lines 56-80): a fresh `testId`, the passed-through header
fields, `totalMarks: 0`, and the normalized questions.  The attached
`calculateTotalMarks` / `calculateUserMarks` behaviour is modelled by the two
standalone functions below. -/
def createTestObject (testId : Nat) (testData : TestSpec) : Test :=
  { testId
    title := testData.title
    timeLimit := testData.timeLimit
    type := testData.type
    totalMarks := 0
    questions := testData.questions.map normalizeQuestion }

/-- The `calculateTotalMarks` method (degreeApi.js lines 83-93): fold over the
questions adding `question.marks` in both the MCQ and the Typed branch, then
store the total in `totalMarks`. -/
def calculateTotalMarks (t : Test) : Test :=
  { t with totalMarks :=
      t.questions.foldl (fun total question =>
        match question with
        | .mcq _ _ _ marks _ => total + marks
        | .typed _ _ marks _ => total + marks) 0 }

/-- An answer record submitted for scoring: the caller-attached `answer` value
and the externally attached `isValidated` flag. -/
structure UserAnswer where
  answer : Option String
  isValidated : Bool
deriving DecidableEq

/-- The per-question contribution inside `calculateUserMarks`: an MCQ adds its
marks when the submitted answer equals `correctAnswer`; a Typed question adds
its marks when the answer record is validated. -/
def questionCredit (question : Question) (ua : UserAnswer) : Nat :=
  match question with
  | .mcq _ _ correctAnswer marks _ => if ua.answer = correctAnswer then marks else 0
  | .typed _ _ marks _ => if ua.isValidated then marks else 0

/-- The `calculateUserMarks` method (degreeApi.js lines 95-111): iterate the
questions against the positionally matching user answers, accumulating the
per-question credit.  The JavaScript loop walks `questions` by index; with a
parallel answer list (one answer per question) this is the fold over the
zipped lists. -/
def calculateUserMarks (t : Test) (userAnswers : List UserAnswer) : Nat :=
  (t.questions.zip userAnswers).foldl
    (fun userTotal p => userTotal + questionCredit p.1 p.2) 0

/-- The lesson formatter inside `addDegree` (degreeApi.js lines 128-136):
upload the lesson file, then build `{ lessonId: uuidv4(), lessonTitle, file }`. -/
def formatLesson (env : Env) (lesson : LessonSpec) : M St Lesson :=
  M.bind (uploadFile env lesson.file) (fun lessonFileMetadata =>
  M.bind St.fresh (fun lid =>
  M.pure { lessonId := lid, lessonTitle := lesson.title, file := lessonFileMetadata }))

/-- Lines 140-141 of degreeApi.js:
`const test = chapter.test ? createTestObject(chapter.test) : null;`
`if (test) test.calculateTotalMarks();` — build the chapter test and run the
aggregate computation on it. -/
def buildChapterTest (ts : Option TestSpec) : M St (Option Test) :=
  match ts with
  | some t => M.bind St.fresh (fun tid =>
      M.pure (some (calculateTotalMarks (createTestObject tid t))))
  | none => M.pure none

/-- Line 160 of degreeApi.js:
`finalTest: course.finalTest ? createTestObject(course.finalTest) : null` —
unlike the chapter test of line 141, `calculateTotalMarks` is never invoked,
so the built final test keeps its initial `totalMarks: 0`. -/
def buildFinalTest (ts : Option TestSpec) : M St (Option Test) :=
  match ts with
  | some t => M.bind St.fresh (fun tid => M.pure (some (createTestObject tid t)))
  | none => M.pure none

/-- The chapter formatter inside `addDegree` (degreeApi.js lines 126-150):
format the lessons, build the chapter test (`createTestObject` followed by the
`test.calculateTotalMarks()` call of line 141), then the chapter literal with
a fresh `chapterId` and `description || ''`. -/
def formatChapter (env : Env) (chapter : ChapterSpec) : M St Chapter :=
  M.bind (M.mapM (formatLesson env) chapter.lessons) (fun formattedLessons =>
  M.bind (buildChapterTest chapter.test) (fun test =>
  M.bind St.fresh (fun cid =>
  M.pure { chapterId := cid, chapterTitle := chapter.title,
           description := jsOrStr chapter.description "", test
           lessons := formattedLessons })))

/-- The course formatter inside `addDegree` (degreeApi.js lines 121-166):
course thumbnail upload, chapter formatting, then the course literal — fresh
`courseId`, then `finalTest: course.finalTest ? createTestObject(...) : null`
(note: unlike the chapter test of line 141, `calculateTotalMarks` is never
invoked on the final test, so its `totalMarks` stays at the initial 0), and
the overview points copied field by field. -/
def formatCourse (env : Env) (course : CourseSpec) : M St Course :=
  M.bind (optThumb env course.thumbnail) (fun courseThumbnailUrl =>
  M.bind (M.mapM (formatChapter env) course.chapters) (fun formattedChapters =>
  M.bind St.fresh (fun cid =>
  M.bind (buildFinalTest course.finalTest) (fun finalTest =>
  M.pure { courseId := cid, courseTitle := course.title,
           description := course.description, thumbnail := courseThumbnailUrl,
           price := course.price, chapters := formattedChapters, finalTest
           overviewPoints := course.overviewPoints.map (fun point =>
             { title := point.title, description := point.description }) }))))

/-- The body of the `try` block of `addDegree` (degreeApi.js lines 116-184):
degree thumbnail, course fan-out, the degree literal with a fresh `degreeId`
and `createdAt: Date.now()`, the single `addDoc` write, and the returned
`degree.degreeId`. -/
def addDegreeTry (env : Env) (degreeData : DegreeInput) : M St Nat :=
  M.bind (optThumb env degreeData.thumbnail) (fun degreeThumbnailUrl =>
  M.bind (M.mapM (formatCourse env) degreeData.courses) (fun formattedCourses =>
  M.bind St.fresh (fun did =>
  let degree : Degree :=
    { degreeId := did, degreeTitle := degreeData.name
      description := degreeData.description, thumbnail := degreeThumbnailUrl
      overviewPoints := degreeData.overviewPoints.map (fun point =>
        { title := point.title, description := point.description })
      courses := formattedCourses, createdAt := env.now, updatedAt := none }
  M.bind (St.addDoc degree) (fun _ =>
  M.pure degree.degreeId))))

/-- `addDegree` (degreeApi.js lines 115-189): the assembly wrapped by the
`catch` that rethrows any failure as a generic saving error. -/
def addDegree (env : Env) (degreeData : DegreeInput) : M St Nat :=
  M.tryCatch (addDegreeTry env degreeData) (fun _ => M.throw "Degree saving failed")

/-- `updateTest` (degreeApi.js lines 221-257): normalize the questions with
the same per-type rules, build the plain `testObject` literal with
`totalMarks: 0`, then call `testObject.calculateTotalMarks()`.  The literal
built here — unlike the one from `createTestObject` — carries no such member,
so the call raises a TypeError; `updateTest` therefore never returns a test
object. -/
def updateTest (testId : Nat) (testData : TestSpec) : Except Err Test :=
  let formattedQuestions := testData.questions.map normalizeQuestion
  let testObject : Test :=
    { testId, title := testData.title, timeLimit := testData.timeLimit
      type := testData.type, totalMarks := 0, questions := formattedQuestions }
  match testObject with
  | _ => .error "TypeError: testObject.calculateTotalMarks is not a function"

/-- Lift a synchronous JavaScript result (value or raised error) into `M`. -/
def M.ofExcept (x : Except Err α) : M σ α := fun s => (x, s)

/-- The chapter formatter inside `editDegree` (degreeApi.js lines 278-299):
as in `addDegree`, but the chapter test is rebuilt through
`updateTest(uuidv4(), chapter.test)`. -/
def editFormatChapter (env : Env) (chapter : ChapterSpec) : M St Chapter :=
  M.bind (M.mapM (formatLesson env) chapter.lessons) (fun formattedLessons =>
  M.bind (match chapter.test with
    | some t => M.bind St.fresh (fun tid =>
        M.bind (M.ofExcept (updateTest tid t)) (fun tt => M.pure (some tt)))
    | none => M.pure none) (fun formattedTest =>
  M.bind St.fresh (fun cid =>
  M.pure { chapterId := cid, chapterTitle := chapter.title,
           description := jsOrStr chapter.description "", test := formattedTest
           lessons := formattedLessons })))

/-- The course formatter inside `editDegree` (degreeApi.js lines 274-315),
with the final test rebuilt through `updateTest(uuidv4(), course.finalTest)`. -/
def editFormatCourse (env : Env) (course : CourseSpec) : M St Course :=
  M.bind (optThumb env course.thumbnail) (fun courseThumbnailUrl =>
  M.bind (M.mapM (editFormatChapter env) course.chapters) (fun formattedChapters =>
  M.bind St.fresh (fun cid =>
  M.bind (match course.finalTest with
    | some t => M.bind St.fresh (fun tid =>
        M.bind (M.ofExcept (updateTest tid t)) (fun tt => M.pure (some tt)))
    | none => M.pure none) (fun finalTest =>
  M.pure { courseId := cid, courseTitle := course.title,
           description := course.description, thumbnail := courseThumbnailUrl,
           price := course.price, chapters := formattedChapters, finalTest
           overviewPoints := course.overviewPoints.map (fun point =>
             { title := point.title, description := point.description }) }))))

/-- The field set handed to `updateDoc` by `editDegree` (degreeApi.js lines
318-328): every listed top-level field of the stored document is overwritten,
including `thumbnail: degreeThumbnailUrl || null`. -/
structure DegreeUpdate where
  degreeTitle : String
  description : String
  thumbnail : Option String
  overviewPoints : List Point
  courses : List Course
  updatedAt : Nat
deriving DecidableEq

/-- `editDegree` (degreeApi.js lines 259-337), producing the `updatedDegree`
payload the function passes to `updateDoc` and returns: re-upload of a
supplied thumbnail (line 271: absent means `degreeThumbnailUrl = null`),
course re-assembly, and the payload literal; any inner failure is rethrown by
the `catch` as a generic update error. -/
def editDegree (env : Env) (updatedDegreeData : DegreeInput) : M St DegreeUpdate :=
  M.tryCatch
    (M.bind (optThumb env updatedDegreeData.thumbnail) (fun degreeThumbnailUrl =>
     M.bind (M.mapM (editFormatCourse env) updatedDegreeData.courses) (fun formattedCourses =>
     M.pure { degreeTitle := updatedDegreeData.name
              description := updatedDegreeData.description
              thumbnail := jsOrNull degreeThumbnailUrl
              overviewPoints := updatedDegreeData.overviewPoints.map (fun point =>
                { title := point.title, description := point.description })
              courses := formattedCourses
              updatedAt := env.now })))
    (fun _ => M.throw "Degree update failed")

/-- Firestore `updateDoc` merge semantics for the `editDegree` payload: every
field present in the payload overwrites the stored value; fields the payload
does not carry (`degreeId`, `createdAt`) are untouched. -/
def applyUpdate (d : Degree) (u : DegreeUpdate) : Degree :=
  { d with degreeTitle := u.degreeTitle, description := u.description
           thumbnail := u.thumbnail, overviewPoints := u.overviewPoints
           courses := u.courses, updatedAt := some u.updatedAt }

/-- Replace the first list element satisfying `p` (the `docs[0].ref` /
first-match write-back used by the part_002 variant). -/
def setFirst (p : α → Bool) (v : α) : List α → List α
  | [] => []
  | x :: xs => if p x then v :: xs else x :: setFirst p v xs

/-- Apply `f` to the first list element satisfying `p` (the JavaScript
`findIndex` + in-place mutation of that element). -/
def modifyFirst (p : α → Bool) (f : α → α) : List α → List α
  | [] => []
  | x :: xs => if p x then f x :: xs else x :: modifyFirst p f xs

namespace P2

/-!
The src/unnamed/part_002 variant of the degree API: its `uploadFile` returns
two extra fields, its `createTestObject` keeps only
question/options/correctAnswer, and its `editDegree` is the catalog mutator
with the `newCourse` / `newChapter` / `newLesson` branches.
-/

/-- The file metadata record returned by the part_002 `uploadFile`:
`{ url, type, name, duration, autoUpdate: true, link: fileUrl }`. -/
structure FileAsset where
  url : String
  type : String
  name : String
  duration : Option Nat
  autoUpdate : Bool
  link : String
deriving DecidableEq

/-- A part_002 stored question: `{ question, options || null,
correctAnswer || null }` (no marks, no answer type). -/
structure TestQ where
  question : String
  options : Option (List String)
  correctAnswer : Option String
deriving DecidableEq

/-- A part_002 stored test: no `totalMarks` aggregate. -/
structure Test where
  testId : Nat
  title : String
  timeLimit : Nat
  type : String
  questions : List TestQ
deriving DecidableEq

/-- A part_002 stored lesson. -/
structure Lesson where
  lessonId : Nat
  lessonTitle : String
  file : FileAsset
deriving DecidableEq

/-- A part_002 stored chapter. -/
structure Chapter where
  chapterId : Nat
  chapterTitle : String
  description : String
  lessons : List Lesson
  test : Option Test
deriving DecidableEq

/-- A part_002 stored course (thumbnails are full file-metadata records here,
and overview points pass through as `overviewPoints || null`). -/
structure Course where
  courseId : Nat
  courseTitle : String
  description : String
  thumbnail : Option FileAsset
  price : Nat
  chapters : List Chapter
  finalTest : Option Test
  overviewPoints : Option (List Point)
deriving DecidableEq

/-- A part_002 stored degree document. -/
structure Degree where
  degreeId : Nat
  degreeTitle : String
  description : String
  thumbnail : Option FileAsset
  overviewPoints : Option (List Point)
  courses : List Course
  createdAt : Nat
deriving DecidableEq

/-- World state for the part_002 operations. -/
structure St where
  nextId : Nat
  puts : List String
  degrees : List Degree
deriving DecidableEq

/-- `uuidv4()` in the part_002 variant. -/
def St.fresh : M St Nat := fun s => (.ok s.nextId, { s with nextId := s.nextId + 1 })

/-- `uploadBytes` against the shared object store. -/
def St.uploadBytes (env : Env) (path : String) (file : FileInput) : M St Unit := fun s =>
  if env.fileOk file then (.ok (), { s with puts := s.puts ++ [path] })
  else (.error "uploadBytes failed", s)

/-- `getDownloadURL` for the file just written. -/
def St.getDownloadURL (env : Env) (file : FileInput) : M St String := fun s =>
  if env.fileOk file then (.ok (env.urlOf file), s)
  else (.error "getDownloadURL failed", s)

/-- `updateDoc(degreeRef, degreeData)` on the first document matched by the
`degreeId` query: the payload carries every field, so the document is
replaced. -/
def St.updateFirstDoc (degreeId : Nat) (d : Degree) : M St Unit := fun s =>
  (.ok (), { s with degrees := setFirst (fun x => x.degreeId == degreeId) d s.degrees })

/-- The `try` body of the part_002 `uploadFile` (part_002 lines 7-43): same
folder lookup, fresh-token path, write, URL and duration probe as the
degreeApi.js version, returning the record with the two extra fields. -/
def uploadFileTry (env : Env) (file : FileInput) : M St FileAsset :=
  let fileType := primaryType file.type
  match SUPPORTED_FILE_FOLDERS fileType with
  | none => M.throw ("Unsupported file type: " ++ file.type)
  | some folder =>
      M.bind St.fresh (fun token =>
      let path := folder ++ "/" ++ toString token ++ "_" ++ file.name
      M.bind (St.uploadBytes env path file) (fun _ =>
      M.bind (St.getDownloadURL env file) (fun fileUrl =>
      let duration : Option Nat :=
        if fileType = "video" ∨ fileType = "audio" then getMediaDuration env file
        else none
      M.pure { url := fileUrl, type := fileType, name := file.name, duration
               autoUpdate := true, link := fileUrl })))

/-- The part_002 `uploadFile` with its rethrowing `catch`. -/
def uploadFile (env : Env) (file : FileInput) : M St FileAsset :=
  M.tryCatch (uploadFileTry env file) (fun _ => M.throw "File upload failed")

/-- The part_002 `createTestObject` (lines 66-76): fresh `testId`, header
pass-through, and per question `{ question, options: options || null (an
empty array is truthy and kept), correctAnswer: correctAnswer || null }`. -/
def createTestObject (testId : Nat) (testData : TestSpec) : Test :=
  { testId, title := testData.title, timeLimit := testData.timeLimit
    type := testData.type
    questions := testData.questions.map (fun question =>
      { question := question.question, options := question.options
        correctAnswer := jsOrNull question.correctAnswer }) }

/-- The `updates.newCourse` payload of the part_002 `editDegree`. -/
structure NewCourseSpec where
  title : String
  description : String
  thumbnail : Option FileInput
  price : Nat
  finalTest : Option TestSpec
  overviewPoints : Option (List Point)
deriving DecidableEq

/-- The `updates.newChapter` payload. -/
structure NewChapterSpec where
  courseId : Nat
  title : String
  description : Option String
deriving DecidableEq

/-- The `updates.newLesson` payload. -/
structure NewLessonSpec where
  courseId : Nat
  chapterId : Nat
  title : String
  file : FileInput
deriving DecidableEq

/-- The partial-update request handed to the part_002 `editDegree`. -/
structure Updates where
  newCourse : Option NewCourseSpec
  newChapter : Option NewChapterSpec
  newLesson : Option NewLessonSpec
deriving DecidableEq

/-- The `updates.newCourse` branch (part_002 lines 182-195): fresh `courseId`,
optional thumbnail via `uploadFile`, empty chapter list, optional final test
via `createTestObject`, and the appended course. -/
def applyNewCourse (env : Env) (updates : Updates) (degreeData : Degree) : M St Degree :=
  match updates.newCourse with
  | none => M.pure degreeData
  | some nc =>
      M.bind St.fresh (fun cid =>
      M.bind (match nc.thumbnail with
        | some f => M.bind (uploadFile env f) (fun a => M.pure (some a))
        | none => M.pure none) (fun thumb =>
      M.bind (match nc.finalTest with
        | some t => M.bind St.fresh (fun tid => M.pure (some (createTestObject tid t)))
        | none => M.pure none) (fun finalTest =>
      M.pure { degreeData with courses := degreeData.courses ++
        [{ courseId := cid, courseTitle := nc.title, description := nc.description
           thumbnail := thumb, price := nc.price, chapters := [], finalTest
           overviewPoints := nc.overviewPoints }] })))

/-- The `updates.newChapter` branch (part_002 lines 197-214): locate the
course by identifier — `findIndex` coming back empty raises the not-found
error — then append the fresh chapter to that course. -/
def applyNewChapter (updates : Updates) (degreeData : Degree) : M St Degree :=
  match updates.newChapter with
  | none => M.pure degreeData
  | some nc =>
      match degreeData.courses.find? (fun course => course.courseId == nc.courseId) with
      | none => M.throw ("Course with ID " ++ toString nc.courseId ++ " not found.")
      | some _ =>
          M.bind St.fresh (fun chid =>
          M.pure { degreeData with courses :=
            (modifyFirst (fun course => course.courseId == nc.courseId)
              (fun course => { course with chapters := course.chapters ++
                [{ chapterId := chid, chapterTitle := nc.title
                   description := jsOrStr nc.description "", lessons := [], test := none }] })
              degreeData.courses) })

/-- The `updates.newLesson` branch (part_002 lines 216-238): locate course
then chapter by identifier (either lookup coming back empty raises the
not-found error before any upload), upload the lesson file, and append the
fresh lesson to that chapter. -/
def applyNewLesson (env : Env) (updates : Updates) (degreeData : Degree) : M St Degree :=
  match updates.newLesson with
  | none => M.pure degreeData
  | some nl =>
      match degreeData.courses.find? (fun course => course.courseId == nl.courseId) with
      | none => M.throw ("Course with ID " ++ toString nl.courseId ++ " not found.")
      | some course =>
          match course.chapters.find? (fun chapter => chapter.chapterId == nl.chapterId) with
          | none => M.throw ("Chapter with ID " ++ toString nl.chapterId ++ " not found.")
          | some _ =>
              M.bind (uploadFile env nl.file) (fun lessonFileMetadata =>
              M.bind St.fresh (fun lid =>
              M.pure { degreeData with courses :=
                (modifyFirst (fun course => course.courseId == nl.courseId)
                  (fun course => { course with chapters :=
                    (modifyFirst (fun chapter => chapter.chapterId == nl.chapterId)
                      (fun chapter => { chapter with lessons := chapter.lessons ++
                        [{ lessonId := lid, lessonTitle := nl.title
                           file := lessonFileMetadata }] })
                      course.chapters) })
                  degreeData.courses) } ))

/-- The `try` body of the part_002 `editDegree` (lines 169-242): query the
collection for the degree (the first match is used; an empty result raises the
not-found error), run the three optional branches on the in-memory copy, then
write the whole document back and return `true`. -/
def editDegreeTry (env : Env) (degreeId : Nat) (updates : Updates) : M St Bool :=
  M.bind M.get (fun s =>
  match s.degrees.find? (fun d => d.degreeId == degreeId) with
  | none => M.throw ("Degree with ID " ++ toString degreeId ++ " not found.")
  | some degreeData =>
      M.bind (applyNewCourse env updates degreeData) (fun degreeData =>
      M.bind (applyNewChapter updates degreeData) (fun degreeData =>
      M.bind (applyNewLesson env updates degreeData) (fun degreeData =>
      M.bind (St.updateFirstDoc degreeId degreeData) (fun _ =>
      M.pure true)))))

/-- The part_002 `editDegree` (lines 169-247): the `catch` swallows every
failure — the caller receives `false`, no error propagates. -/
def editDegree (env : Env) (degreeId : Nat) (updates : Updates) : M St Bool :=
  M.tryCatch (editDegreeTry env degreeId updates) (fun _ => M.pure false)

end P2

/-! ### Proof infrastructure -/

theorem M.pure_run (a : α) (s : σ) : M.pure a s = (.ok a, s) := rfl

theorem M.throw_run (e : Err) (s : σ) : (M.throw e : M σ α) s = (.error e, s) := rfl

theorem M.bind_run (x : M σ α) (f : α → M σ β) (s : σ) :
    M.bind x f s =
      match x s with
      | (.ok a, s') => f a s'
      | (.error e, s') => (.error e, s') := rfl

theorem M.tryCatch_run (x : M σ α) (handler : Err → M σ α) (s : σ) :
    M.tryCatch x handler s =
      match x s with
      | (.error e, s') => handler e s'
      | r => r := rfl

theorem St.fresh_run (s : St) :
    St.fresh s = (.ok s.nextId, { s with nextId := s.nextId + 1 }) := rfl

/-- Identifier lists sit inside the half-open generator range and repeat no
value. -/
def IdsIn (l : List Nat) (lo hi : Nat) : Prop :=
  l.Nodup ∧ ∀ i ∈ l, lo ≤ i ∧ i < hi

theorem IdsIn.nil (lo hi : Nat) : IdsIn [] lo hi :=
  ⟨List.nodup_nil, by simp⟩

theorem IdsIn.single {lo i hi : Nat} (h1 : lo ≤ i) (h2 : i < hi) : IdsIn [i] lo hi :=
  ⟨List.nodup_singleton i, by simpa using ⟨h1, h2⟩⟩

theorem IdsIn.mono {l : List Nat} {lo hi lo' hi' : Nat}
    (h : IdsIn l lo hi) (hlo : lo' ≤ lo) (hhi : hi ≤ hi') : IdsIn l lo' hi' :=
  ⟨h.1, fun i hi' => ⟨le_trans hlo (h.2 i hi').1, lt_of_lt_of_le (h.2 i hi').2 hhi⟩⟩

theorem IdsIn.append {l1 l2 : List Nat} {lo mid hi : Nat}
    (hlm : lo ≤ mid) (hmh : mid ≤ hi)
    (h1 : IdsIn l1 lo mid) (h2 : IdsIn l2 mid hi) : IdsIn (l1 ++ l2) lo hi := by
  refine ⟨List.Nodup.append h1.1 h2.1 ?_, ?_⟩
  · intro a ha1 ha2
    exact absurd ((h2.2 a ha2).1) (not_le.mpr (h1.2 a ha1).2)
  · intro i hmem
    rcases List.mem_append.mp hmem with h | h
    · exact ⟨(h1.2 i h).1, lt_of_lt_of_le (h1.2 i h).2 hmh⟩
    · exact ⟨le_trans hlm (h2.2 i h).1, (h2.2 i h).2⟩

/-- The node identifiers of a stored lesson. -/
def Lesson.ids (l : Lesson) : List Nat := [l.lessonId]

/-- The node identifier of an optional test. -/
def optTestIds : Option Test → List Nat
  | some t => [t.testId]
  | none => []

/-- The node identifiers of a stored chapter, in generation order. -/
def Chapter.ids (c : Chapter) : List Nat :=
  c.lessons.flatMap Lesson.ids ++ optTestIds c.test ++ [c.chapterId]

/-- The node identifiers of a stored course, in generation order. -/
def Course.ids (c : Course) : List Nat :=
  c.chapters.flatMap Chapter.ids ++ [c.courseId] ++ optTestIds c.finalTest

/-- The node identifiers of a stored degree, in generation order. -/
def Degree.ids (d : Degree) : List Nat :=
  d.courses.flatMap Course.ids ++ [d.degreeId]

/-- The output lesson sits at the position of its input spec. -/
def lessonMirrors (ls : LessonSpec) (l : Lesson) : Prop :=
  l.lessonTitle = ls.title

/-- The output test carries one normalized question per input question spec,
in input order. -/
def testMirrors (ts : TestSpec) (t : Test) : Prop :=
  t.title = ts.title ∧
  List.Forall₂ (fun qs q => Question.text q = qs.question) ts.questions t.questions

/-- An optional test mirrors an optional test spec. -/
def optTestMirrors : Option TestSpec → Option Test → Prop
  | some ts, some t => testMirrors ts t
  | none, none => True
  | _, _ => False

/-- The output chapter mirrors the input chapter spec positionally. -/
def chapterMirrors (cs : ChapterSpec) (c : Chapter) : Prop :=
  c.chapterTitle = cs.title ∧
  List.Forall₂ lessonMirrors cs.lessons c.lessons ∧
  optTestMirrors cs.test c.test

/-- The output course mirrors the input course spec positionally. -/
def courseMirrors (cs : CourseSpec) (c : Course) : Prop :=
  c.courseTitle = cs.title ∧
  c.overviewPoints = cs.overviewPoints ∧
  List.Forall₂ chapterMirrors cs.chapters c.chapters ∧
  optTestMirrors cs.finalTest c.finalTest

/-- The assembled degree mirrors the authoring input: same titles, identical
overview-point list, and positionally mirrored course list at every level. -/
def degreeMirrors (inp : DegreeInput) (d : Degree) : Prop :=
  d.degreeTitle = inp.name ∧
  d.overviewPoints = inp.overviewPoints ∧
  List.Forall₂ courseMirrors inp.courses d.courses

/-- All raw files carried by a course spec (thumbnail first, then the lesson
files chapter by chapter). -/
def CourseSpec.files (c : CourseSpec) : List FileInput :=
  c.thumbnail.toList ++ c.chapters.flatMap (fun ch => ch.lessons.map (fun l => l.file))

/-- All raw files carried by an authoring input. -/
def DegreeInput.files (inp : DegreeInput) : List FileInput :=
  inp.thumbnail.toList ++ inp.courses.flatMap CourseSpec.files

/-- Full characterization of a single `uploadFile` run: unsupported category
fails before any write; otherwise the store interaction decides the outcome
and the asset carries the probed duration for video/audio. -/
theorem uploadFile_run (env : Env) (f : FileInput) (s : St) :
    uploadFile env f s =
      match SUPPORTED_FILE_FOLDERS (primaryType f.type) with
      | none => (.error "File upload failed", s)
      | some folder =>
          if env.fileOk f then
            (.ok { url := env.urlOf f, type := primaryType f.type, name := f.name,
                   duration := if primaryType f.type = "video" ∨ primaryType f.type = "audio"
                     then env.duration f else none },
             { s with nextId := s.nextId + 1,
                      puts := s.puts ++ [folder ++ "/" ++ toString s.nextId ++ "_" ++ f.name] })
          else (.error "File upload failed", { s with nextId := s.nextId + 1 }) := by
  cases hfolder : SUPPORTED_FILE_FOLDERS (primaryType f.type) with
  | none =>
      simp [uploadFile, uploadFileTry, M.tryCatch, M.bind, M.throw, hfolder]
  | some folder =>
      cases henv : env.fileOk f with
      | true =>
          simp [uploadFile, uploadFileTry, M.tryCatch, M.bind, M.throw, M.pure,
                St.fresh, St.uploadBytes, St.getDownloadURL, getMediaDuration, hfolder, henv]
      | false =>
          simp [uploadFile, uploadFileTry, M.tryCatch, M.bind, M.throw, M.pure,
                St.fresh, St.uploadBytes, St.getDownloadURL, hfolder, henv]

/-- Full characterization of a single `uploadThumbnail` run. -/
theorem uploadThumbnail_run (env : Env) (f : FileInput) (s : St) :
    uploadThumbnail env f s =
      if env.fileOk f then
        (.ok (env.urlOf f),
         { s with nextId := s.nextId + 1,
                  puts := s.puts ++ ["thumbnails/" ++ toString s.nextId ++ "_" ++ f.name] })
      else (.error "Thumbnail upload failed", { s with nextId := s.nextId + 1 }) := by
  cases henv : env.fileOk f with
  | true =>
      simp [uploadThumbnail, uploadThumbnailTry, M.tryCatch, M.bind, M.throw, M.pure,
            St.fresh, St.uploadBytes, St.getDownloadURL, henv]
  | false =>
      simp [uploadThumbnail, uploadThumbnailTry, M.tryCatch, M.bind, M.throw, M.pure,
            St.fresh, St.uploadBytes, St.getDownloadURL, henv]

/-- Frame facts of any `uploadFile` run: the generator only advances, the
degrees collection is untouched, and success implies the store accepted the
file. -/
theorem uploadFile_frame {env : Env} {f : FileInput} {s : St} {r : Except Err FileAsset} {s' : St}
    (h : uploadFile env f s = (r, s')) :
    s.nextId ≤ s'.nextId ∧ s'.degrees = s.degrees ∧
    ∀ a, r = .ok a → env.fileOk f = true := by
  rw [uploadFile_run] at h
  cases hf : SUPPORTED_FILE_FOLDERS (primaryType f.type) with
  | none =>
      rw [hf] at h
      injection h with h1 h2
      subst h2
      refine ⟨le_refl _, rfl, ?_⟩
      intro a ha
      rw [← h1] at ha
      exact Except.noConfusion ha
  | some folder =>
      rw [hf] at h
      cases henv : env.fileOk f with
      | true =>
          simp only [henv, if_true] at h
          injection h with h1 h2
          subst h2
          exact ⟨Nat.le_succ _, rfl, fun a _ => rfl⟩
      | false =>
          simp only [henv, Bool.false_eq_true, if_false] at h
          injection h with h1 h2
          subst h2
          refine ⟨Nat.le_succ _, rfl, ?_⟩
          intro a ha
          rw [← h1] at ha
          exact Except.noConfusion ha

/-- Frame facts of any `uploadThumbnail` run. -/
theorem uploadThumbnail_frame {env : Env} {f : FileInput} {s : St} {r : Except Err String} {s' : St}
    (h : uploadThumbnail env f s = (r, s')) :
    s.nextId ≤ s'.nextId ∧ s'.degrees = s.degrees ∧
    ∀ u, r = .ok u → env.fileOk f = true := by
  rw [uploadThumbnail_run] at h
  cases henv : env.fileOk f with
  | true =>
      simp only [henv, if_true] at h
      injection h with h1 h2
      subst h2
      exact ⟨Nat.le_succ _, rfl, fun a _ => rfl⟩
  | false =>
      simp only [henv, Bool.false_eq_true, if_false] at h
      injection h with h1 h2
      subst h2
      refine ⟨Nat.le_succ _, rfl, ?_⟩
      intro a ha
      rw [← h1] at ha
      exact Except.noConfusion ha

/-- Frame facts of the optional-thumbnail step. -/
theorem optThumb_frame {env : Env} {t : Option FileInput} {s : St} {r : Except Err (Option String)} {s' : St}
    (h : optThumb env t s = (r, s')) :
    s.nextId ≤ s'.nextId ∧ s'.degrees = s.degrees ∧
    ∀ u, r = .ok u → ∀ f ∈ t.toList, env.fileOk f = true := by
  cases t with
  | none =>
      simp only [optThumb, M.pure] at h
      injection h with h1 h2
      subst h2
      exact ⟨le_refl _, rfl, by simp⟩
  | some f =>
      simp only [optThumb, M.bind] at h
      cases hu : uploadThumbnail env f s with
      | mk r1 s1 =>
          rw [hu] at h
          obtain ⟨m1, m2, m3⟩ := uploadThumbnail_frame hu
          cases r1 with
          | error e =>
              injection h with h1 h2
              subst h2
              refine ⟨m1, m2, ?_⟩
              intro u hu'
              rw [← h1] at hu'
              exact Except.noConfusion hu'
          | ok u =>
              simp only [M.pure] at h
              injection h with h1 h2
              subst h2
              refine ⟨m1, m2, ?_⟩
              intro u' _ f' hf'
              simp only [Option.toList_some, List.mem_singleton] at hf'
              subst hf'
              exact m3 u rfl

theorem normalizeQuestion_text (q : QuestionSpec) :
    Question.text (normalizeQuestion q) = q.question := by
  cases hq : q.type <;> simp [normalizeQuestion, hq, Question.text]

/-- `calculateTotalMarks` only rewrites the aggregate; header and questions
stay. -/
theorem calculateTotalMarks_frame (t : Test) :
    (calculateTotalMarks t).title = t.title ∧
    (calculateTotalMarks t).questions = t.questions ∧
    (calculateTotalMarks t).testId = t.testId := ⟨rfl, rfl, rfl⟩

theorem testMirrors_create (tid : Nat) (ts : TestSpec) :
    testMirrors ts (createTestObject tid ts) := by
  refine ⟨rfl, ?_⟩
  simp only [createTestObject]
  induction ts.questions with
  | nil => exact List.Forall₂.nil
  | cons q qs ih => exact List.Forall₂.cons (normalizeQuestion_text q) ih

theorem testMirrors_calc {ts : TestSpec} {t : Test} (h : testMirrors ts t) :
    testMirrors ts (calculateTotalMarks t) := ⟨h.1, h.2⟩

/-- Combined frame-and-success specification of the lesson formatter. -/
theorem formatLesson_spec {env : Env} {ls : LessonSpec} {s : St} {r : Except Err Lesson} {s' : St}
    (h : formatLesson env ls s = (r, s')) :
    s.nextId ≤ s'.nextId ∧ s'.degrees = s.degrees ∧
    ∀ l, r = .ok l →
      IdsIn (Lesson.ids l) s.nextId s'.nextId ∧ lessonMirrors ls l ∧
      env.fileOk ls.file = true := by
  simp only [formatLesson, M.bind] at h
  cases hu : uploadFile env ls.file s with
  | mk r1 s1 =>
      rw [hu] at h
      obtain ⟨m1, m2, m3⟩ := uploadFile_frame hu
      cases r1 with
      | error e =>
          injection h with h1 h2
          subst h2
          refine ⟨m1, m2, ?_⟩
          intro l hl
          rw [← h1] at hl
          exact Except.noConfusion hl
      | ok meta =>
          simp only [St.fresh, M.pure] at h
          injection h with h1 h2
          subst h2
          refine ⟨le_trans m1 (Nat.le_succ _), m2, ?_⟩
          intro l hl
          rw [← h1] at hl
          injection hl with hl
          subst hl
          exact ⟨IdsIn.single m1 (Nat.lt_succ_self _), rfl, m3 meta rfl⟩

/-- Combined specification of the `Promise.all` fan-out: element-wise frame
and success facts lift to the whole list, with the identifier ranges of the
elements laid out consecutively (hence disjoint). -/
theorem mapM_spec {α β : Type} (f : α → M St β) (g : β → List Nat)
    (R : α → β → Prop) (Q : α → Prop)
    (hf : ∀ x s r s', f x s = (r, s') →
        s.nextId ≤ s'.nextId ∧ s'.degrees = s.degrees ∧
        ∀ y, r = .ok y → IdsIn (g y) s.nextId s'.nextId ∧ R x y ∧ Q x) :
    ∀ (xs : List α) (s : St) (r : Except Err (List β)) (s' : St),
      M.mapM f xs s = (r, s') →
        s.nextId ≤ s'.nextId ∧ s'.degrees = s.degrees ∧
        ∀ ys, r = .ok ys →
          IdsIn (ys.flatMap g) s.nextId s'.nextId ∧
          List.Forall₂ R xs ys ∧ ∀ x ∈ xs, Q x := by
  intro xs
  induction xs with
  | nil =>
      intro s r s' h
      simp only [M.mapM, M.pure] at h
      injection h with h1 h2
      subst h2
      refine ⟨le_refl _, rfl, ?_⟩
      intro ys hys
      rw [← h1] at hys
      injection hys with hys
      subst hys
      exact ⟨IdsIn.nil _ _, List.Forall₂.nil, by simp⟩
  | cons a as ih =>
      intro s r s' h
      simp only [M.mapM, M.bind] at h
      cases ha : f a s with
      | mk r1 s1 =>
          rw [ha] at h
          obtain ⟨m1, m2, m3⟩ := hf a s r1 s1 ha
          cases r1 with
          | error e =>
              injection h with h1 h2
              subst h2
              refine ⟨m1, m2, ?_⟩
              intro ys hys
              rw [← h1] at hys
              exact Except.noConfusion hys
          | ok b =>
              simp only [] at h
              cases has : M.mapM f as s1 with
              | mk r2 s2 =>
                  rw [has] at h
                  obtain ⟨n1, n2, n3⟩ := ih s1 r2 s2 has
                  cases r2 with
                  | error e =>
                      injection h with h1 h2
                      subst h2
                      refine ⟨le_trans m1 n1, n2.trans m2, ?_⟩
                      intro ys hys
                      rw [← h1] at hys
                      exact Except.noConfusion hys
                  | ok bs =>
                      simp only [M.pure] at h
                      injection h with h1 h2
                      subst h2
                      refine ⟨le_trans m1 n1, n2.trans m2, ?_⟩
                      intro ys hys
                      rw [← h1] at hys
                      injection hys with hys
                      subst hys
                      obtain ⟨i1, i2, i3⟩ := m3 b rfl
                      obtain ⟨j1, j2, j3⟩ := n3 bs rfl
                      refine ⟨?_, List.Forall₂.cons i2 j2, ?_⟩
                      · simpa using IdsIn.append m1 n1 i1 j1
                      · intro x hx
                        rcases List.mem_cons.mp hx with hx | hx
                        · subst hx; exact i3
                        · exact j3 x hx

/-- Combined specification of the chapter-test build step. -/
theorem buildChapterTest_spec {ts : Option TestSpec} {s : St} {r : Except Err (Option Test)} {s' : St}
    (h : buildChapterTest ts s = (r, s')) :
    s.nextId ≤ s'.nextId ∧ s'.degrees = s.degrees ∧
    ∀ t, r = .ok t → IdsIn (optTestIds t) s.nextId s'.nextId ∧ optTestMirrors ts t := by
  cases ts with
  | none =>
      simp only [buildChapterTest, M.pure] at h
      injection h with h1 h2
      subst h2
      refine ⟨le_refl _, rfl, ?_⟩
      intro t ht
      rw [← h1] at ht
      injection ht with ht
      subst ht
      exact ⟨IdsIn.nil _ _, trivial⟩
  | some t0 =>
      simp only [buildChapterTest, M.bind, St.fresh, M.pure] at h
      injection h with h1 h2
      subst h2
      refine ⟨Nat.le_succ _, rfl, ?_⟩
      intro t ht
      rw [← h1] at ht
      injection ht with ht
      subst ht
      exact ⟨IdsIn.single (le_refl _) (Nat.lt_succ_self _),
             testMirrors_calc (testMirrors_create _ _)⟩

/-- Combined specification of the final-test build step. -/
theorem buildFinalTest_spec {ts : Option TestSpec} {s : St} {r : Except Err (Option Test)} {s' : St}
    (h : buildFinalTest ts s = (r, s')) :
    s.nextId ≤ s'.nextId ∧ s'.degrees = s.degrees ∧
    ∀ t, r = .ok t → IdsIn (optTestIds t) s.nextId s'.nextId ∧ optTestMirrors ts t := by
  cases ts with
  | none =>
      simp only [buildFinalTest, M.pure] at h
      injection h with h1 h2
      subst h2
      refine ⟨le_refl _, rfl, ?_⟩
      intro t ht
      rw [← h1] at ht
      injection ht with ht
      subst ht
      exact ⟨IdsIn.nil _ _, trivial⟩
  | some t0 =>
      simp only [buildFinalTest, M.bind, St.fresh, M.pure] at h
      injection h with h1 h2
      subst h2
      refine ⟨Nat.le_succ _, rfl, ?_⟩
      intro t ht
      rw [← h1] at ht
      injection ht with ht
      subst ht
      exact ⟨IdsIn.single (le_refl _) (Nat.lt_succ_self _), testMirrors_create _ _⟩

/-- Combined frame-and-success specification of the chapter formatter. -/
theorem formatChapter_spec {env : Env} {cs : ChapterSpec} {s : St} {r : Except Err Chapter} {s' : St}
    (h : formatChapter env cs s = (r, s')) :
    s.nextId ≤ s'.nextId ∧ s'.degrees = s.degrees ∧
    ∀ c, r = .ok c →
      IdsIn (Chapter.ids c) s.nextId s'.nextId ∧ chapterMirrors cs c ∧
      ∀ fl ∈ cs.lessons.map (fun l => l.file), env.fileOk fl = true := by
  simp only [formatChapter, M.bind] at h
  cases hml : M.mapM (formatLesson env) cs.lessons s with
  | mk r1 s1 =>
      rw [hml] at h
      obtain ⟨m1, m2, m3⟩ := mapM_spec (formatLesson env) Lesson.ids lessonMirrors
        (fun ls => env.fileOk ls.file = true)
        (fun x sx rx sx' hx => formatLesson_spec hx) cs.lessons s r1 s1 hml
      cases r1 with
      | error e =>
          injection h with h1 h2
          subst h2
          refine ⟨m1, m2, ?_⟩
          intro c hc
          rw [← h1] at hc
          exact Except.noConfusion hc
      | ok lessons =>
          simp only [] at h
          cases hbt : buildChapterTest cs.test s1 with
          | mk r2 s2 =>
              rw [hbt] at h
              obtain ⟨n1, n2, n3⟩ := buildChapterTest_spec hbt
              cases r2 with
              | error e =>
                  injection h with h1 h2
                  subst h2
                  refine ⟨le_trans m1 n1, n2.trans m2, ?_⟩
                  intro c hc
                  rw [← h1] at hc
                  exact Except.noConfusion hc
              | ok t =>
                  simp only [St.fresh, M.pure] at h
                  injection h with h1 h2
                  subst h2
                  refine ⟨le_trans m1 (le_trans n1 (Nat.le_succ _)), n2.trans m2, ?_⟩
                  intro c hc
                  rw [← h1] at hc
                  injection hc with hc
                  subst hc
                  obtain ⟨i1, i2, i3⟩ := m3 lessons rfl
                  obtain ⟨j1, j2⟩ := n3 t rfl
                  refine ⟨?_, ⟨rfl, i2, j2⟩, ?_⟩
                  · simp only [Chapter.ids]
                    exact IdsIn.append (le_trans m1 n1) (Nat.le_succ _)
                      (IdsIn.append m1 n1 i1 j1)
                      (IdsIn.single (le_refl _) (Nat.lt_succ_self _))
                  · intro fl hfl
                    obtain ⟨l, hl, rfl⟩ := List.mem_map.mp hfl
                    exact i3 l hl

theorem points_map_id (l : List Point) :
    l.map (fun p => Point.mk p.title p.description) = l := by
  induction l with
  | nil => rfl
  | cons p ps ih => simp [ih]

/-- Combined frame-and-success specification of the course formatter. -/
theorem formatCourse_spec {env : Env} {cs : CourseSpec} {s : St} {r : Except Err Course} {s' : St}
    (h : formatCourse env cs s = (r, s')) :
    s.nextId ≤ s'.nextId ∧ s'.degrees = s.degrees ∧
    ∀ c, r = .ok c →
      IdsIn (Course.ids c) s.nextId s'.nextId ∧ courseMirrors cs c ∧
      ∀ fl ∈ CourseSpec.files cs, env.fileOk fl = true := by
  simp only [formatCourse, M.bind] at h
  cases hot : optThumb env cs.thumbnail s with
  | mk r0 s0 =>
      rw [hot] at h
      obtain ⟨t1, t2, t3⟩ := optThumb_frame hot
      cases r0 with
      | error e =>
          injection h with h1 h2
          subst h2
          refine ⟨t1, t2, ?_⟩
          intro c hc
          rw [← h1] at hc
          exact Except.noConfusion hc
      | ok thumbUrl =>
          simp only [] at h
          cases hmc : M.mapM (formatChapter env) cs.chapters s0 with
          | mk r1 s1 =>
              rw [hmc] at h
              obtain ⟨m1, m2, m3⟩ := mapM_spec (formatChapter env) Chapter.ids chapterMirrors
                (fun ch => ∀ fl ∈ ch.lessons.map (fun l => l.file), env.fileOk fl = true)
                (fun x sx rx sx' hx => formatChapter_spec hx) cs.chapters s0 r1 s1 hmc
              cases r1 with
              | error e =>
                  injection h with h1 h2
                  subst h2
                  refine ⟨le_trans t1 m1, m2.trans t2, ?_⟩
                  intro c hc
                  rw [← h1] at hc
                  exact Except.noConfusion hc
              | ok chapters =>
                  simp only [St.fresh] at h
                  cases hft : buildFinalTest cs.finalTest { s1 with nextId := s1.nextId + 1 } with
                  | mk r2 s2 =>
                      rw [hft] at h
                      obtain ⟨n1, n2, n3⟩ := buildFinalTest_spec hft
                      cases r2 with
                      | error e =>
                          injection h with h1 h2
                          subst h2
                          refine ⟨le_trans t1 (le_trans m1 (le_trans (Nat.le_succ _) n1)),
                                  n2.trans (m2.trans t2), ?_⟩
                          intro c hc
                          rw [← h1] at hc
                          exact Except.noConfusion hc
                      | ok finalTest =>
                          simp only [M.pure] at h
                          injection h with h1 h2
                          subst h2
                          refine ⟨le_trans t1 (le_trans m1 (le_trans (Nat.le_succ _) n1)),
                                  n2.trans (m2.trans t2), ?_⟩
                          intro c hc
                          rw [← h1] at hc
                          injection hc with hc
                          subst hc
                          obtain ⟨i1, i2, i3⟩ := m3 chapters rfl
                          obtain ⟨j1, j2⟩ := n3 finalTest rfl
                          refine ⟨?_, ⟨rfl, points_map_id _, i2, j2⟩, ?_⟩
                          · simp only [Course.ids]
                            exact IdsIn.append (le_trans t1 (le_trans m1 (Nat.le_succ _))) n1
                              (IdsIn.append (le_trans t1 m1) (Nat.le_succ _)
                                (IdsIn.mono i1 t1 (le_refl _))
                                (IdsIn.single (le_refl _) (Nat.lt_succ_self _))) j1
                          · intro fl hfl
                            rcases List.mem_append.mp hfl with hfl | hfl
                            · exact t3 thumbUrl rfl fl hfl
                            · obtain ⟨ch, hch, hfl'⟩ := List.mem_flatMap.mp hfl
                              exact i3 ch hch fl hfl'

/-- Master specification of `addDegree`: an error leaves the degrees
collection untouched (and is the generic saving error), while success appends
exactly one document whose identifiers are fresh and pairwise distinct, whose
shape mirrors the input, and whose assembly implies that every carried file
was accepted by the store. -/
theorem addDegree_spec {env : Env} {inp : DegreeInput} {s : St} {r : Except Err Nat} {s' : St}
    (h : addDegree env inp s = (r, s')) :
    (∀ e, r = .error e → e = "Degree saving failed" ∧ s'.degrees = s.degrees) ∧
    ∀ did, r = .ok did → ∃ d : Degree,
      s'.degrees = s.degrees ++ [d] ∧ did = d.degreeId ∧
      IdsIn (Degree.ids d) s.nextId s'.nextId ∧ degreeMirrors inp d ∧
      (∀ fl ∈ DegreeInput.files inp, env.fileOk fl = true) := by
  have key : ∀ (rt : Except Err Nat) (st : St), addDegreeTry env inp s = (rt, st) →
      (∀ e, rt = .error e → st.degrees = s.degrees) ∧
      ∀ did, rt = .ok did → ∃ d : Degree,
        st.degrees = s.degrees ++ [d] ∧ did = d.degreeId ∧
        IdsIn (Degree.ids d) s.nextId st.nextId ∧ degreeMirrors inp d ∧
        (∀ fl ∈ DegreeInput.files inp, env.fileOk fl = true) := by
    intro rt st ht
    simp only [addDegreeTry, M.bind] at ht
    cases hot : optThumb env inp.thumbnail s with
    | mk r0 s0 =>
        rw [hot] at ht
        obtain ⟨t1, t2, t3⟩ := optThumb_frame hot
        cases r0 with
        | error e =>
            injection ht with h1 h2
            subst h2
            constructor
            · intro e' _; exact t2
            · intro did hdid; rw [← h1] at hdid; exact Except.noConfusion hdid
        | ok thumbUrl =>
            simp only [] at ht
            cases hmc : M.mapM (formatCourse env) inp.courses s0 with
            | mk r1 s1 =>
                rw [hmc] at ht
                obtain ⟨m1, m2, m3⟩ := mapM_spec (formatCourse env) Course.ids courseMirrors
                  (fun cs => ∀ fl ∈ CourseSpec.files cs, env.fileOk fl = true)
                  (fun x sx rx sx' hx => formatCourse_spec hx) inp.courses s0 r1 s1 hmc
                cases r1 with
                | error e =>
                    injection ht with h1 h2
                    subst h2
                    constructor
                    · intro e' _; exact m2.trans t2
                    · intro did hdid; rw [← h1] at hdid; exact Except.noConfusion hdid
                | ok courses =>
                    simp only [St.fresh, St.addDoc, M.pure] at ht
                    injection ht with h1 h2
                    subst h2
                    constructor
                    · intro e he; rw [← h1] at he; exact Except.noConfusion he
                    · intro did hdid
                      rw [← h1] at hdid
                      injection hdid with hdid
                      obtain ⟨i1, i2, i3⟩ := m3 courses rfl
                      refine ⟨_, by rw [m2, t2], hdid.symm, ?_, ⟨rfl, points_map_id _, i2⟩, ?_⟩
                      · simp only [Degree.ids]
                        exact IdsIn.append (le_trans t1 m1) (Nat.le_succ _)
                          (IdsIn.mono i1 t1 (le_refl _))
                          (IdsIn.single (le_refl _) (Nat.lt_succ_self _))
                      · intro fl hfl
                        rcases List.mem_append.mp hfl with hfl | hfl
                        · exact t3 thumbUrl rfl fl hfl
                        · obtain ⟨cs, hcs, hfl'⟩ := List.mem_flatMap.mp hfl
                          exact i3 cs hcs fl hfl'
  simp only [addDegree, M.tryCatch] at h
  cases ht : addDegreeTry env inp s with
  | mk rt st =>
      rw [ht] at h
      obtain ⟨k1, k2⟩ := key rt st ht
      cases rt with
      | error e =>
          simp only [M.throw] at h
          injection h with h1 h2
          subst h2
          constructor
          · intro e' he'
            rw [← h1] at he'
            injection he' with he'
            exact ⟨he'.symm, k1 e rfl⟩
          · intro did hdid
            rw [← h1] at hdid
            exact Except.noConfusion hdid
      | ok did0 =>
          injection h with h1 h2
          subst h2
          constructor
          · intro e he
            rw [← h1] at he
            exact Except.noConfusion he
          · intro did hdid
            rw [← h1] at hdid
            injection hdid with hdid
            subst hdid
            exact k2 did0 rfl

/-! ### Concrete fixtures for witnesses -/

/-- An oracle that accepts every file, with a failing media probe. -/
def envOk : Env :=
  { fileOk := fun _ => true, urlOf := fun _ => "https://cdn.example/u"
    duration := fun _ => none, now := 5 }

/-- An oracle whose object store rejects every file. -/
def envBad : Env :=
  { fileOk := fun _ => false, urlOf := fun _ => "https://cdn.example/u"
    duration := fun _ => none, now := 5 }

/-- An empty world. -/
def st0 : St := { nextId := 0, puts := [], degrees := [] }

/-- A video file input. -/
def vidFile : FileInput := { name := "v.mp4", type := "video/mp4" }

/-- A plain-text file input, whose primary category has no storage folder. -/
def txtFile : FileInput := { name := "x.txt", type := "text/plain" }

/-- A minimal authoring input: no thumbnail, no courses. -/
def inpEmpty : DegreeInput :=
  { name := "T", description := "D", thumbnail := none, overviewPoints := [], courses := [] }

/-- The document `addDegree envOk inpEmpty st0` writes. -/
def degEmpty : Degree :=
  { degreeId := 0, degreeTitle := "T", description := "D", thumbnail := none
    overviewPoints := [], courses := [], createdAt := 5, updatedAt := none }

/-- The world after `addDegree envOk inpEmpty st0`. -/
def st1 : St := { nextId := 1, puts := [], degrees := [degEmpty] }

/-- An authoring input with one course, one chapter and one video lesson. -/
def inpLesson : DegreeInput :=
  { name := "T", description := "D", thumbnail := none, overviewPoints := []
    courses := [{ title := "C", description := "d", thumbnail := none, price := 0
                  chapters := [{ title := "Ch", description := none
                                 lessons := [{ title := "L", file := vidFile }]
                                 test := none }]
                  finalTest := none, overviewPoints := [] }] }

/-! ### Claim theorems -/

/-- C2: if any file or thumbnail upload inside `addDegree` fails, `addDegree`
fails as a whole (with the generic saving error the catch block rethrows) and
no document is written to the degrees collection. -/
theorem C2_addDegree_atomic (env : Env) (inp : DegreeInput) (s : St)
    (hfail : ∃ f ∈ DegreeInput.files inp, env.fileOk f = false) :
    ∃ s', addDegree env inp s = (.error "Degree saving failed", s') ∧
      s'.degrees = s.degrees := by
  cases h : addDegree env inp s with
  | mk r s' =>
      obtain ⟨k1, k2⟩ := addDegree_spec h
      cases r with
      | error e =>
          obtain ⟨he, hd⟩ := k1 e rfl
          subst he
          exact ⟨s', rfl, hd⟩
      | ok did =>
          obtain ⟨d, _, _, _, _, hfiles⟩ := k2 did rfl
          obtain ⟨f, hf, hbad⟩ := hfail
          rw [hfiles f hf] at hbad
          exact absurd hbad (by simp)

/-- C2 witness: a one-lesson input against a store that rejects every file —
`addDegree` fails with the saving error and writes no degree document. -/
theorem C2_addDegree_atomic_witness :
    (∃ f ∈ DegreeInput.files inpLesson, envBad.fileOk f = false) ∧
    ∃ s', addDegree envBad inpLesson st0 = (.error "Degree saving failed", s') ∧
      s'.degrees = st0.degrees :=
  ⟨⟨vidFile, by decide, rfl⟩, C2_addDegree_atomic envBad inpLesson st0 ⟨vidFile, by decide, rfl⟩⟩

/-- C3: a successful `addDegree` writes exactly one document whose tree
mirrors the authoring input level by level — same course, chapter, lesson,
overview-point and question counts, in input order. -/
theorem C3_assemble_shape (env : Env) (inp : DegreeInput) (s : St) (did : Nat) (s' : St)
    (h : addDegree env inp s = (.ok did, s')) :
    ∃ d : Degree, s'.degrees = s.degrees ++ [d] ∧ degreeMirrors inp d := by
  obtain ⟨_, k2⟩ := addDegree_spec h
  obtain ⟨d, hd, _, _, hm, _⟩ := k2 did rfl
  exact ⟨d, hd, hm⟩

/-- C3 witness at the empty authoring input. -/
theorem C3_assemble_shape_witness :
    addDegree envOk inpEmpty st0 = (.ok 0, st1) ∧
    ∃ d : Degree, st1.degrees = st0.degrees ++ [d] ∧ degreeMirrors inpEmpty d :=
  ⟨rfl, C3_assemble_shape envOk inpEmpty st0 0 st1 rfl⟩

/-- C4: every identifier in a tree written by a successful `addDegree` is
freshly generated (not below the generator mark at call time) and all
identifiers within the tree are pairwise distinct. -/
theorem C4_fresh_ids (env : Env) (inp : DegreeInput) (s : St) (did : Nat) (s' : St)
    (h : addDegree env inp s = (.ok did, s')) :
    ∃ d : Degree, s'.degrees = s.degrees ++ [d] ∧
      (Degree.ids d).Nodup ∧ ∀ i ∈ Degree.ids d, s.nextId ≤ i := by
  obtain ⟨_, k2⟩ := addDegree_spec h
  obtain ⟨d, hd, _, hids, _, _⟩ := k2 did rfl
  exact ⟨d, hd, hids.1, fun i hi => (hids.2 i hi).1⟩

/-- C4 witness at the empty authoring input. -/
theorem C4_fresh_ids_witness :
    addDegree envOk inpEmpty st0 = (.ok 0, st1) ∧
    ∃ d : Degree, st1.degrees = st0.degrees ++ [d] ∧
      (Degree.ids d).Nodup ∧ ∀ i ∈ Degree.ids d, st0.nextId ≤ i :=
  ⟨rfl, C4_fresh_ids envOk inpEmpty st0 0 st1 rfl⟩

/-- C8: a file whose primary content-type category has no storage folder
makes `uploadFile` throw the unsupported-type error before any store
interaction (the public `catch` rewraps it as the generic upload error); the
state — in particular the object store — is untouched. -/
theorem C8_unsupported_type (env : Env) (f : FileInput) (s : St)
    (h : SUPPORTED_FILE_FOLDERS (primaryType f.type) = none) :
    uploadFileTry env f s = (.error ("Unsupported file type: " ++ f.type), s) ∧
    uploadFile env f s = (.error "File upload failed", s) := by
  constructor
  · simp only [uploadFileTry, h, M.throw]
  · rw [uploadFile_run, h]

/-- C8 witness: a `text/plain` file. -/
theorem C8_unsupported_type_witness :
    SUPPORTED_FILE_FOLDERS (primaryType txtFile.type) = none ∧
    uploadFileTry envOk txtFile st0 = (.error ("Unsupported file type: " ++ txtFile.type), st0) ∧
    uploadFile envOk txtFile st0 = (.error "File upload failed", st0) :=
  ⟨by decide, (C8_unsupported_type envOk txtFile st0 (by decide)).1,
   (C8_unsupported_type envOk txtFile st0 (by decide)).2⟩

/-- C6: for a video or audio file the store accepts, `uploadFile` succeeds
even when the media-metadata probe fails, returning an asset whose duration is
recorded as `null`. -/
theorem C6_duration_null (env : Env) (f : FileInput) (s : St)
    (hcat : primaryType f.type = "video" ∨ primaryType f.type = "audio")
    (hok : env.fileOk f = true)
    (hmeta : env.duration f = none) :
    ∃ s', uploadFile env f s =
      (.ok { url := env.urlOf f, type := primaryType f.type, name := f.name,
             duration := none }, s') := by
  rcases hcat with hcat | hcat
  · refine ⟨{ s with nextId := s.nextId + 1, puts := s.puts ++ ["videos/" ++ toString s.nextId ++ "_" ++ f.name] }, ?_⟩
    rw [uploadFile_run, hcat]
    simp [SUPPORTED_FILE_FOLDERS, hok, hmeta, getMediaDuration]
  · refine ⟨{ s with nextId := s.nextId + 1, puts := s.puts ++ ["audios/" ++ toString s.nextId ++ "_" ++ f.name] }, ?_⟩
    rw [uploadFile_run, hcat]
    simp [SUPPORTED_FILE_FOLDERS, hok, hmeta, getMediaDuration]

/-- C6 witness: a video file with a failing metadata probe. -/
theorem C6_duration_null_witness :
    (primaryType vidFile.type = "video" ∨ primaryType vidFile.type = "audio") ∧
    envOk.fileOk vidFile = true ∧ envOk.duration vidFile = none ∧
    ∃ s', uploadFile envOk vidFile st0 =
      (.ok { url := envOk.urlOf vidFile, type := primaryType vidFile.type,
             name := vidFile.name, duration := none }, s') :=
  ⟨Or.inl (by decide), rfl, rfl,
   C6_duration_null envOk vidFile st0 (Or.inl (by decide)) rfl rfl⟩

/-- No credit accrues at a question: the submitted MCQ answer differs from
`correctAnswer`, or the Typed answer record is not validated. -/
def NoCredit (question : Question) (ua : UserAnswer) : Prop :=
  match question with
  | .mcq _ _ correctAnswer _ _ => ¬ (ua.answer = correctAnswer)
  | .typed _ _ _ _ => ua.isValidated = false

instance (question : Question) (ua : UserAnswer) : Decidable (NoCredit question ua) := by
  unfold NoCredit
  cases question <;> infer_instance

theorem NoCredit.credit_zero {question : Question} {ua : UserAnswer}
    (h : NoCredit question ua) : questionCredit question ua = 0 := by
  cases question with
  | mcq q o ca m u =>
      simp only [NoCredit] at h
      simp [questionCredit, h]
  | typed q a m u =>
      simp only [NoCredit] at h
      simp [questionCredit, h]

theorem foldl_add_map {γ : Type} (g : γ → Nat) (l : List γ) (n : Nat) :
    l.foldl (fun a p => a + g p) n = n + (l.map g).sum := by
  induction l generalizing n with
  | nil => simp
  | cons x xs ih => simp [ih, Nat.add_assoc]

theorem calculateUserMarks_eq_sum (t : Test) (uas : List UserAnswer) :
    calculateUserMarks t uas =
      ((t.questions.zip uas).map (fun p => questionCredit p.1 p.2)).sum := by
  have hfun : (fun (userTotal : Nat) (p : Question × UserAnswer) =>
      userTotal + questionCredit p.1 p.2) = fun a p => a + (fun q => questionCredit q.1 q.2) p := rfl
  simp [calculateUserMarks, hfun, foldl_add_map]

/-- C9: scoring a built test against a parallel answer list yields 0 when no
MCQ answer matches its `correctAnswer` and no Typed answer is validated; and
when exactly one pair is a matching MCQ (everything else earning no credit),
it yields that question's marks. -/
theorem C9_score (t : Test) (uas : List UserAnswer)
    (_hlen : uas.length = t.questions.length) :
    ((∀ p ∈ t.questions.zip uas, NoCredit p.1 p.2) → calculateUserMarks t uas = 0) ∧
    (∀ (l1 : List (Question × UserAnswer)) (q : Question) (ua : UserAnswer)
       (l2 : List (Question × UserAnswer)),
       t.questions.zip uas = l1 ++ (q, ua) :: l2 →
       (∃ qt opts correctAnswer mk ui,
          q = Question.mcq qt opts correctAnswer mk ui ∧ ua.answer = correctAnswer) →
       (∀ p ∈ l1 ++ l2, NoCredit p.1 p.2) →
       calculateUserMarks t uas = q.marks) := by
  constructor
  · intro hall
    rw [calculateUserMarks_eq_sum]
    apply List.sum_eq_zero
    intro x hx
    obtain ⟨p, hp, rfl⟩ := List.mem_map.mp hx
    exact NoCredit.credit_zero (hall p hp)
  · intro l1 q ua l2 hzip hmatch hrest
    rw [calculateUserMarks_eq_sum, hzip]
    obtain ⟨qt, opts, ca, mk, ui, hq, hans⟩ := hmatch
    have hcred : questionCredit q ua = q.marks := by
      subst hq
      simp [questionCredit, hans, Question.marks]
    have hz1 : ((l1.map (fun p => questionCredit p.1 p.2)).sum) = 0 := by
      apply List.sum_eq_zero
      intro x hx
      obtain ⟨p, hp, rfl⟩ := List.mem_map.mp hx
      exact NoCredit.credit_zero (hrest p (List.mem_append.mpr (Or.inl hp)))
    have hz2 : ((l2.map (fun p => questionCredit p.1 p.2)).sum) = 0 := by
      apply List.sum_eq_zero
      intro x hx
      obtain ⟨p, hp, rfl⟩ := List.mem_map.mp hx
      exact NoCredit.credit_zero (hrest p (List.mem_append.mpr (Or.inr hp)))
    simp [hz1, hz2, hcred]

/-- A concrete built test for the scoring witness: one MCQ worth 2 marks and
one Typed question. -/
def testW : Test :=
  { testId := 0, title := "t", timeLimit := 1, type := "timed", totalMarks := 2
    questions := [.mcq "a" ["x", "y"] (some "x") 2 none, .typed "b" "ref" 0 ""] }

/-- Answers with one matching MCQ. -/
def uasMatch : List UserAnswer := [⟨some "x", false⟩, ⟨none, false⟩]

/-- Answers with no match and no validation. -/
def uasMiss : List UserAnswer := [⟨some "y", false⟩, ⟨none, false⟩]

/-- C9 witness: the two scenarios of the claim at a concrete test. -/
theorem C9_score_witness :
    calculateUserMarks testW uasMiss = 0 ∧ calculateUserMarks testW uasMatch = 2 :=
  ⟨(C9_score testW uasMiss rfl).1 (by decide),
   (C9_score testW uasMatch rfl).2 []
     (.mcq "a" ["x", "y"] (some "x") 2 none) ⟨some "x", false⟩
     [(.typed "b" "ref" 0 "", ⟨none, false⟩)] (by decide)
     ⟨"a", ["x", "y"], some "x", 2, none, rfl, rfl⟩ (by decide)⟩

/-- The number of MCQ-tagged question specs. -/
def countMCQ (qs : List QuestionSpec) : Nat :=
  qs.countP (fun q => match q.type with | .MCQ => true | .Typed => false)

theorem calculateTotalMarks_totalMarks (t : Test) :
    (calculateTotalMarks t).totalMarks = (t.questions.map Question.marks).sum := by
  have hfun : (fun (total : Nat) (question : Question) =>
      match question with
      | Question.mcq _ _ _ marks _ => total + marks
      | Question.typed _ _ marks _ => total + marks) =
      fun a q => a + Question.marks q := by
    funext a q
    cases q <;> rfl
  simp [calculateTotalMarks, hfun, foldl_add_map]

theorem sumMarks_normalize (qs : List QuestionSpec)
    (h : ∀ q ∈ qs, q.type = AnswerType.MCQ → (q.marks = none ∨ q.marks = some 0)) :
    ((qs.map normalizeQuestion).map Question.marks).sum = countMCQ qs := by
  induction qs with
  | nil => rfl
  | cons q qs ih =>
      have hq := h q (by simp)
      have hrest : ∀ x ∈ qs, x.type = AnswerType.MCQ → (x.marks = none ∨ x.marks = some 0) :=
        fun x hx => h x (by simp [hx])
      have ih' := ih hrest
      cases hqt : q.type with
      | MCQ =>
          have hmarks : Question.marks (normalizeQuestion q) = 1 := by
            rcases hq hqt with hm | hm <;>
              simp [normalizeQuestion, hqt, Question.marks, jsOrNat, hm]
          have hcount : countMCQ (q :: qs) = countMCQ qs + 1 := by
            simp [countMCQ, List.countP_cons, hqt]
          simp only [List.map_cons, List.sum_cons, hmarks, hcount, ih']
          omega
      | Typed =>
          have hmarks : Question.marks (normalizeQuestion q) = 0 := by
            simp [normalizeQuestion, hqt, Question.marks]
          have hcount : countMCQ (q :: qs) = countMCQ qs := by
            simp [countMCQ, List.countP_cons, hqt]
          simp only [List.map_cons, List.sum_cons, hmarks, hcount, ih']
          omega

/-- C7 (amended): for a freshly authored test whose MCQ questions leave their
mark value unspecified (absent, or the falsy 0 which the `marks || 1` default
also replaces by 1), the computed `totalMarks` equals the number of MCQ
questions, Typed questions contributing 0. -/
theorem C7_total_eq_mcq_count (n : Nat) (ts : TestSpec)
    (h : ∀ q ∈ ts.questions, q.type = AnswerType.MCQ → (q.marks = none ∨ q.marks = some 0)) :
    (calculateTotalMarks (createTestObject n ts)).totalMarks = countMCQ ts.questions := by
  rw [calculateTotalMarks_totalMarks]
  exact sumMarks_normalize ts.questions h

/-- A test spec whose single MCQ question explicitly carries 2 marks. -/
def tsX : TestSpec :=
  { title := "t", timeLimit := 10, type := "timed"
    questions := [{ question := "q", type := .MCQ, options := some ["a", "b"]
                    correctAnswer := some "a", answer := none, marks := some 2 }] }

/-- C7 counterexample: with an explicit per-question mark value of 2 the
computed `totalMarks` (2) differs from the number of MCQ questions (1). -/
theorem C7_counterexample :
    (calculateTotalMarks (createTestObject 0 tsX)).totalMarks ≠ countMCQ tsX.questions := by
  decide

/-- C7 witness: an all-default two-question spec (one MCQ without marks, one
Typed). -/
def tsDefaults : TestSpec :=
  { title := "t", timeLimit := 10, type := "timed"
    questions := [{ question := "q", type := .MCQ, options := some ["a", "b"]
                    correctAnswer := some "a", answer := none, marks := none },
                  { question := "w", type := .Typed, options := none
                    correctAnswer := none, answer := some "ref", marks := none }] }

theorem C7_total_eq_mcq_count_witness :
    (calculateTotalMarks (createTestObject 0 tsDefaults)).totalMarks = countMCQ tsDefaults.questions :=
  C7_total_eq_mcq_count 0 tsDefaults (by decide)

/-- A test spec with one MCQ question leaving `marks` unspecified: its
normalized mark defaults to 1, so the marks of its questions sum to 1. -/
def tsM : TestSpec :=
  { title := "Final", timeLimit := 10, type := "timed"
    questions := [{ question := "q", type := .MCQ, options := some ["a", "b"]
                    correctAnswer := some "a", answer := none, marks := none }] }

/-- An authoring input whose single course carries `tsM` as its final test. -/
def inpFinalTest : DegreeInput :=
  { name := "T", description := "D", thumbnail := none, overviewPoints := []
    courses := [{ title := "C", description := "d", thumbnail := none, price := 0
                  chapters := [], finalTest := some tsM, overviewPoints := [] }] }

/-- C1 (failing evaluation): `addDegree` builds the course final test through
`createTestObject` alone — the `calculateTotalMarks` call of line 141 is
applied only to chapter tests — so the persisted final test keeps
`totalMarks = 0` although its normalized question marks sum to 1. -/
theorem C1_finalTest_totalMarks_bug :
    ((((addDegree envOk inpFinalTest st0).2.degrees.head?.bind
        (fun d => d.courses.head?)).bind (fun c => c.finalTest)).map
      (fun t => t.totalMarks)) = some 0 ∧
    ((((addDegree envOk inpFinalTest st0).2.degrees.head?.bind
        (fun d => d.courses.head?)).bind (fun c => c.finalTest)).map
      (fun t => (t.questions.map Question.marks).sum)) = some 1 := by
  exact ⟨rfl, rfl⟩

/-- C10: when the update request supplies no new thumbnail, the `updateDoc`
payload built by `editDegree` carries `thumbnail: null`, so the written
document has its top-level thumbnail overwritten with `null` — whatever URL
was stored before is not preserved. -/
theorem C10_thumbnail_nulled (env : Env) (inp : DegreeInput) (s : St)
    (u : DegreeUpdate) (s' : St)
    (hthumb : inp.thumbnail = none)
    (hrun : editDegree env inp s = (.ok u, s')) :
    u.thumbnail = none ∧ ∀ d : Degree, (applyUpdate d u).thumbnail = none := by
  simp only [editDegree, M.tryCatch, M.bind, hthumb, optThumb, M.pure] at hrun
  cases hmc : M.mapM (editFormatCourse env) inp.courses s with
  | mk r1 s1 =>
      rw [hmc] at hrun
      cases r1 with
      | error e =>
          simp only [M.throw] at hrun
          injection hrun with h1 h2
          exact absurd h1 (by simp)
      | ok courses =>
          simp only [M.pure] at hrun
          injection hrun with h1 h2
          injection h1 with h1
          subst h1
          exact ⟨rfl, fun d => rfl⟩

/-- The payload `editDegree envOk inpEmpty st0` produces. -/
def updEmpty : DegreeUpdate :=
  { degreeTitle := "T", description := "D", thumbnail := none
    overviewPoints := [], courses := [], updatedAt := 5 }

/-- C10 witness: an update input without thumbnail; applying the produced
payload to a stored document holding a thumbnail URL nulls it. -/
theorem C10_thumbnail_nulled_witness :
    editDegree envOk inpEmpty st0 = (.ok updEmpty, st0) ∧
    updEmpty.thumbnail = none ∧
    ∀ d : Degree, (applyUpdate d updEmpty).thumbnail = none :=
  ⟨rfl, (C10_thumbnail_nulled envOk inpEmpty st0 updEmpty st0 rfl rfl).1,
   (C10_thumbnail_nulled envOk inpEmpty st0 updEmpty st0 rfl rfl).2⟩

/-- C5 (amended): the part_002 `editDegree` run with a `newLesson` update
whose course or chapter identifier is absent from the stored tree fails — the
not-found error is raised before the upload, then caught by the surrounding
`catch`, so the caller receives `false` — and the stored degree document is
left completely unchanged (no write is issued, the whole state is untouched). -/
theorem C5_appendLesson_notfound (env : Env) (s : P2.St) (did : Nat)
    (nl : P2.NewLessonSpec) (d : P2.Degree)
    (hfind : s.degrees.find? (fun x => x.degreeId == did) = some d)
    (hmiss : (d.courses.find? (fun c => c.courseId == nl.courseId) = none) ∨
             (∃ c, d.courses.find? (fun c => c.courseId == nl.courseId) = some c ∧
                   c.chapters.find? (fun ch => ch.chapterId == nl.chapterId) = none)) :
    P2.editDegree env did ⟨none, none, some nl⟩ s = (.ok false, s) := by
  simp only [P2.editDegree, P2.editDegreeTry, M.tryCatch, M.bind, M.get, hfind,
             P2.applyNewCourse, P2.applyNewChapter, P2.applyNewLesson, M.pure]
  rcases hmiss with hm | ⟨c, hc, hch⟩
  · simp [hm, M.throw]
  · simp [hc, hch, M.throw]

/-- A stored part_002 course (identifier 2) with no chapters. -/
def p2courseW : P2.Course :=
  { courseId := 2, courseTitle := "C", description := "d", thumbnail := none
    price := 0, chapters := [], finalTest := none, overviewPoints := none }

/-- A stored part_002 degree document (identifier 1). -/
def p2degW : P2.Degree :=
  { degreeId := 1, degreeTitle := "T", description := "D", thumbnail := none
    overviewPoints := none, courses := [p2courseW], createdAt := 0 }

/-- A world holding exactly that stored degree. -/
def p2stW : P2.St := { nextId := 10, puts := [], degrees := [p2degW] }

/-- A lesson append naming an existing course but a chapter identifier (99)
that does not exist in the stored tree. -/
def p2nlW : P2.NewLessonSpec :=
  { courseId := 2, chapterId := 99, title := "L", file := vidFile }

/-- The corresponding update request. -/
def p2updW : P2.Updates :=
  { newCourse := none, newChapter := none, newLesson := some p2nlW }

/-- C5 counterexample to the claim as stated: at this concrete input the call
returns `false` — it does not propagate any error to the caller, so there is
no thrown NotFound the caller could observe. -/
theorem C5_counterexample :
    P2.editDegree envOk 1 p2updW p2stW = (.ok false, p2stW) ∧
    ¬ ∃ e s', P2.editDegree envOk 1 p2updW p2stW = (.error e, s') := by
  refine ⟨rfl, ?_⟩
  rintro ⟨e, s', h⟩
  have h0 : (Except.ok false : Except Err Bool) = Except.error e :=
    congrArg Prod.fst
      ((rfl : P2.editDegree envOk 1 p2updW p2stW = (.ok false, p2stW)).symm.trans h)
  exact Except.noConfusion h0

/-- C5 witness: the amended behaviour at the concrete input — `false` is
returned and the state (stored document included) is exactly the initial one. -/
theorem C5_appendLesson_notfound_witness :
    p2stW.degrees.find? (fun x => x.degreeId == 1) = some p2degW ∧
    P2.editDegree envOk 1 ⟨none, none, some p2nlW⟩ p2stW = (.ok false, p2stW) :=
  ⟨rfl, C5_appendLesson_notfound envOk p2stW 1 p2nlW p2degW rfl
    (Or.inr ⟨p2courseW, rfl, rfl⟩)⟩
